import Mathlib

/-!
Verification development for the ToDoApp repository: a shallow embedding of
the Supabase-backed server actions (actions.ts), the SQL schema actions, and
the client-side UI logic (page.tsx, TaskCard.tsx), with theorems settling the
frozen claims about soft delete, restore, category handling, error handling,
debounced autosave and local-storage drafts.

Conventions of the embedding:
- timestamps (ISO strings in the code) are abstracted as natural numbers;
- the remote database is a state (Db) threaded through each server action;
- each server action takes a flag saying whether the remote service reports
  an error on its (single) query, and returns the result together with the
  new database state, the console.error log entries it emits, and the number
  of remote calls it issues;
- JavaScript string falsiness (the empty string) and option falsiness are
  made explicit via jsTruthy / jsOrString.
-/

namespace ToDoApp

/-- Truthiness of a nullable JS string: null/undefined and the empty string
are falsy, every other string is truthy. -/
def jsTruthy : Option String → Bool
  | none => false
  | some s => !(s == "")

/-- JS expression s or dflt for strings: the empty string is falsy, so it
falls through to the default. -/
def jsOrString (s dflt : String) : String :=
  if s == "" then dflt else s

/-- JS expression c or null for a nullable string: null, undefined and the
empty string collapse to null. -/
def jsOrNull (c : Option String) : Option String :=
  if jsTruthy c then c else none

/-- JS String.prototype.trim: strip leading and trailing whitespace. Written
over the character list so the kernel can evaluate it. -/
def jsTrim (s : String) : String :=
  ⟨((s.data.dropWhile Char.isWhitespace).reverse.dropWhile Char.isWhitespace).reverse⟩

/-- JS String.prototype.toLowerCase, restricted to the ASCII lowering that
Char.toLower performs. Written over the character list so the kernel can
evaluate it. -/
def jsToLower (s : String) : String :=
  ⟨s.data.map Char.toLower⟩

/-- Row of the categories table (interface Category in actions.ts). -/
structure Category where
  id : String
  name : String
  created_at : Nat
deriving DecidableEq, Repr

/-- Row of the tasks table (interface DbTask in actions.ts, after the
soft-delete and updated_at migrations). -/
structure DbTask where
  id : String
  title : Option String
  content : Option String
  created_at : Nat
  updated_at : Nat
  category_id : Option String
  is_deleted : Bool
  deleted_at : Option Nat
deriving DecidableEq, Repr

/-- Interface TaskInput in actions.ts. A missing category_id (undefined) and
an explicit null are both modelled as none. -/
structure TaskInput where
  title : String
  content : String
  category_id : Option String
deriving DecidableEq, Repr

/-- State of the remote database: the tasks and categories tables. -/
structure Db where
  tasks : List DbTask
  categories : List Category
deriving DecidableEq, Repr

/-- Outcome of one server action: its return value, the database state after
it, the console.error messages it logged, and how many remote queries it
issued. -/
structure ActionResult (α : Type) where
  result : α
  db : Db
  log : List String
  remoteCalls : Nat
deriving Repr

/-- Insertion into a list sorted by the Boolean comparator le. -/
def insertSorted (le : α → α → Bool) (a : α) : List α → List α
  | [] => [a]
  | b :: bs => if le a b then a :: b :: bs else b :: insertSorted le a bs

/-- Insertion sort by the Boolean comparator le; models the order(...) clause
of the Supabase query builder. -/
def sortByC (le : α → α → Bool) : List α → List α
  | [] => []
  | a :: as => insertSorted le a (sortByC le as)

/-- Comparator for order with created_at ascending on categories. -/
def catCreatedAsc (c d : Category) : Bool :=
  decide (c.created_at ≤ d.created_at)

/-- Comparator for order with created_at descending on tasks. -/
def taskCreatedDesc (t u : DbTask) : Bool :=
  decide (u.created_at ≤ t.created_at)

/-- Comparator for order with deleted_at descending on tasks; a null
deleted_at sorts first, as Postgres places NULLs first on DESC. -/
def taskDeletedDesc (t u : DbTask) : Bool :=
  match t.deleted_at, u.deleted_at with
  | none, _ => true
  | some _, none => false
  | some a, some b => decide (b ≤ a)

/-- Update every row of the tasks table whose id matches, as the query
builder update(...).eq(id, id) does. -/
def updateRows (tasks : List DbTask) (id : String) (upd : DbTask → DbTask) : List DbTask :=
  tasks.map (fun t => if t.id == id then upd t else t)

/-- Semantics of single() on the rows an update returned: exactly one row
yields that row, anything else is an error (none). -/
def singleRow : List DbTask → Option DbTask
  | [t] => some t
  | _ => none

/-- Server action getCategories: select all categories ordered by created_at
ascending; on a remote error, log and return the empty list. -/
def getCategories (db : Db) (fail : Bool) : ActionResult (List Category) :=
  if fail then ⟨[], db, ["Error fetching categories:"], 1⟩
  else ⟨sortByC catCreatedAsc db.categories, db, [], 1⟩

/-- Server action createCategory: insert a row with the given name; on a
remote error, log and return null. The fresh id and timestamp come from the
database and are passed as parameters of the model. -/
def createCategory (db : Db) (name : String) (newId : String) (now : Nat)
    (fail : Bool) : ActionResult (Option Category) :=
  if fail then ⟨none, db, ["Error creating category:"], 1⟩
  else
    let row : Category := ⟨newId, name, now⟩
    ⟨some row, { db with categories := db.categories ++ [row] }, [], 1⟩

/-- Server action updateCategory: reject a missing or blank name without any
remote call; otherwise update the matching row with the trimmed name and
return it via maybeSingle (null, without an error, when no row matched). -/
def updateCategory (db : Db) (id : String) (name : Option String)
    (fail : Bool) : ActionResult (Option Category) :=
  if !(jsTruthy name) || jsTrim (name.getD "") == "" then
    ⟨none, db, ["Error updating category: New name cannot be empty."], 0⟩
  else if fail then
    ⟨none, db, ["Error updating category:"], 1⟩
  else
    let cats2 := db.categories.map
      (fun c => if c.id == id then { c with name := jsTrim (name.getD "") } else c)
    ⟨(cats2.filter (fun c => c.id == id)).head?,
      { db with categories := cats2 }, [], 1⟩

/-- Server action getTasksByCategory: select all tasks ordered by created_at
descending, filtered by eq(category_id, cid) when the argument is truthy and
by is(category_id, null) otherwise. Note that it does not filter on
is_deleted. On a remote error, log and return the empty list. -/
def getTasksByCategory (db : Db) (category_id : Option String)
    (fail : Bool) : ActionResult (List DbTask) :=
  if fail then ⟨[], db, ["Error fetching tasks by category:"], 1⟩
  else
    let base := sortByC taskCreatedDesc db.tasks
    let rows :=
      if jsTruthy category_id then base.filter (fun t => t.category_id == category_id)
      else base.filter (fun t => t.category_id == none)
    ⟨rows, db, [], 1⟩

/-- Server action getTasks: select all tasks ordered by created_at
descending; on a remote error, log and return the empty list. -/
def getTasks (db : Db) (fail : Bool) : ActionResult (List DbTask) :=
  if fail then ⟨[], db, ["Error fetching tasks:"], 1⟩
  else ⟨sortByC taskCreatedDesc db.tasks, db, [], 1⟩

/-- Row built by the createTask insert: title falls back to Untitled Task on
a falsy title, category_id collapses falsy values to null; created_at and
updated_at are filled by the database. -/
def newTaskRow (input : TaskInput) (newId : String) (now : Nat) : DbTask :=
  { id := newId
    title := some (jsOrString input.title "Untitled Task")
    content := some input.content
    created_at := now
    updated_at := now
    category_id := jsOrNull input.category_id
    is_deleted := false
    deleted_at := none }

/-- Server action createTask: insert one row and return it via single(); on
a remote error, log and return null. -/
def createTask (db : Db) (input : TaskInput) (newId : String) (now : Nat)
    (fail : Bool) : ActionResult (Option DbTask) :=
  if fail then ⟨none, db, ["Error creating task:"], 1⟩
  else
    let row := newTaskRow input newId now
    ⟨some row, { db with tasks := db.tasks ++ [row] }, [], 1⟩

/-- Field update applied by the updateTask payload to a matching row, with
the updated_at trigger from the migration also firing. -/
def applyInputRow (input : TaskInput) (now : Nat) (t : DbTask) : DbTask :=
  { t with
    title := some (jsOrString input.title "Untitled Task")
    content := some input.content
    category_id := jsOrNull input.category_id
    updated_at := now }

/-- Server action updateTask: update the matching row and return it via
single(); a remote error, or anything other than exactly one returned row,
logs and returns null. -/
def updateTask (db : Db) (id : String) (input : TaskInput) (now : Nat)
    (fail : Bool) : ActionResult (Option DbTask) :=
  if fail then ⟨none, db, ["Error updating task:"], 1⟩
  else
    let tasks2 := updateRows db.tasks id (applyInputRow input now)
    let res := singleRow (tasks2.filter (fun t => t.id == id))
    ⟨res, { db with tasks := tasks2 },
      if res.isNone then ["Error updating task:"] else [], 1⟩

/-- Field update applied by the deleteTask payload: mark the row deleted and
stamp deleted_at; the updated_at trigger also fires. -/
def applyDeleteRow (now : Nat) (t : DbTask) : DbTask :=
  { t with is_deleted := true, deleted_at := some now, updated_at := now }

/-- Server action deleteTask (current actions.ts): soft delete. Update the
matching row with is_deleted true and deleted_at now, returning it via
single(); a remote error, or anything other than exactly one returned row,
logs and returns null. -/
def deleteTask (db : Db) (id : String) (now : Nat) (fail : Bool) :
    ActionResult (Option DbTask) :=
  if fail then ⟨none, db, ["Error soft deleting task:"], 1⟩
  else
    let tasks2 := updateRows db.tasks id (applyDeleteRow now)
    let res := singleRow (tasks2.filter (fun t => t.id == id))
    ⟨res, { db with tasks := tasks2 },
      if res.isNone then ["Error soft deleting task:"] else [], 1⟩

/-- Field update applied by the restoreTask payload: clear the deletion flag
and deleted_at; the updated_at trigger also fires. -/
def applyRestoreRow (now : Nat) (t : DbTask) : DbTask :=
  { t with is_deleted := false, deleted_at := none, updated_at := now }

/-- Server action restoreTask: update the matching row with is_deleted false
and deleted_at null, returning it via single(); a remote error, or anything
other than exactly one returned row, logs and returns null. -/
def restoreTask (db : Db) (id : String) (now : Nat) (fail : Bool) :
    ActionResult (Option DbTask) :=
  if fail then ⟨none, db, ["Error restoring task:"], 1⟩
  else
    let tasks2 := updateRows db.tasks id (applyRestoreRow now)
    let res := singleRow (tasks2.filter (fun t => t.id == id))
    ⟨res, { db with tasks := tasks2 },
      if res.isNone then ["Error restoring task:"] else [], 1⟩

/-- Server action getRecentlyDeletedTasks: select the tasks with is_deleted
true, ordered by deleted_at descending; on a remote error, log and return
the empty list. -/
def getRecentlyDeletedTasks (db : Db) (fail : Bool) : ActionResult (List DbTask) :=
  if fail then ⟨[], db, ["Error fetching recently deleted tasks:"], 1⟩
  else ⟨sortByC taskDeletedDesc (db.tasks.filter (fun t => t.is_deleted)), db, [], 1⟩

/-- Stale deleteTask variant kept at src/src/app/actions.ts: a hard delete
returning a Boolean; on a remote error, log and return false. -/
def deleteTaskHard (db : Db) (id : String) (fail : Bool) : ActionResult Bool :=
  if fail then ⟨false, db, ["Error deleting task:"], 1⟩
  else ⟨true, { db with tasks := db.tasks.filter (fun t => !(t.id == id)) }, [], 1⟩

/-- Shape of a JavaScript value as surfaced to a caller, used to state what
an action returns on an error: null, a Boolean, an array of some length, or
an object. -/
inductive JsValue
  | vnull
  | vtrue
  | vfalse
  | varr (n : Nat)
  | vobj
deriving DecidableEq, Repr

/-- Shape of a nullable object return. -/
def jsOfOption : Option α → JsValue
  | none => .vnull
  | some _ => .vobj

/-- Shape of an array return. -/
def jsOfList (l : List α) : JsValue := .varr l.length

/-- Shape of a Boolean return. -/
def jsOfBool (b : Bool) : JsValue := if b then .vtrue else .vfalse

/-- Foreign-key action from the schema: category_id REFERENCES
categories(id) ON DELETE SET NULL. Deleting a category removes it from the
categories table and sets the category_id of every referencing task row to
null; no task row is deleted. -/
def onDeleteCategorySetNull (db : Db) (catId : String) : Db :=
  { db with
    categories := db.categories.filter (fun c => !(c.id == catId))
    tasks := db.tasks.map
      (fun t => if t.category_id == some catId then { t with category_id := none } else t) }

/-- State update performed by handleDeleteTask in page.tsx when deleteTask
succeeds: the task with the given id is filtered out of the visible list. -/
def handleDeleteTaskUpdate (tasks : List DbTask) (id : String) : List DbTask :=
  tasks.filter (fun t => !(t.id == id))

/-- Outcome of a category-name UI handler in page.tsx: silently bail out,
reject a duplicate name with an alert, or issue the server call with the
given name. Only callServer reaches the remote service. -/
inductive CatUiOutcome
  | cancel
  | rejectDuplicate (name : String)
  | callServer (name : String)
deriving DecidableEq, Repr

/-- Discriminator: does the handler outcome issue a server call. -/
def CatUiOutcome.isCallServer : CatUiOutcome → Bool
  | .callServer _ => true
  | _ => false

/-- Client handler handleSaveCategoryName in page.tsx: trim the input; bail
out when no category is being edited, the trimmed name is empty, or it
equals the original name; reject, without a server call, a trimmed name that
matches another existing category case-insensitively; otherwise call
updateCategory with the trimmed name. -/
def handleSaveCategoryName (categories : List Category)
    (editingCategoryId : Option String) (input : String) : CatUiOutcome :=
  let newName := jsTrim input
  if !(jsTruthy editingCategoryId) || newName == "" then .cancel
  else
    let eid := editingCategoryId.getD ""
    match categories.find? (fun c => c.id == eid) with
    | some orig =>
      if orig.name == newName then .cancel
      else
        let others := categories.filter (fun c => !(c.id == eid))
        if others.any (fun c => jsToLower c.name == jsToLower newName) then
          .rejectDuplicate newName
        else .callServer newName
    | none =>
      let others := categories.filter (fun c => !(c.id == eid))
      if others.any (fun c => jsToLower c.name == jsToLower newName) then
        .rejectDuplicate newName
      else .callServer newName

/-- Client handler handleCreateCategory in page.tsx: bail out on a blank
name, otherwise call createCategory with the trimmed name. It consults the
existing category list nowhere. -/
def handleCreateCategory (newCategoryName : String) : CatUiOutcome :=
  if jsTrim newCategoryName == "" then .cancel
  else .callServer (jsTrim newCategoryName)

/-- Arguments the debounced autosave in TaskCard.tsx passes to
performAutoSave: the task id and the current title, content and category. -/
structure AutoSaveArgs where
  taskId : String
  title : String
  content : String
  categoryId : Option String
deriving DecidableEq, Repr

/-- Semantics of the debounce utility in TaskCard.tsx on a timeline of calls
at strictly increasing times: each call clears any pending timeout and arms
a new one for its own arguments, wait milliseconds later; a timeout fires
only if no further call arrives before its deadline. The result lists the
fired invocations as pairs of fire time and arguments. -/
def debounceRun (wait : Nat) : List (Nat × α) → List (Nat × α)
  | [] => []
  | (t, a) :: rest =>
    match rest with
    | [] => [(t + wait, a)]
    | (t2, _) :: _ =>
      if t2 < t + wait then debounceRun wait rest
      else (t + wait, a) :: debounceRun wait rest

/-- Timeline of autosave triggers processed by debouncedPerformAutoSave,
which wraps performAutoSave in debounce(..., 1500). -/
def debouncedPerformAutoSave (edits : List (Nat × AutoSaveArgs)) :
    List (Nat × AutoSaveArgs) :=
  debounceRun 1500 edits

/-- Predicate on a timeline: every call arrives strictly before the
previous call plus wait, so the whole list is one burst within a single
quiet period. -/
def withinWaitB (wait : Nat) : List (Nat × α) → Bool
  | [] => true
  | [_] => true
  | (t1, _) :: (t2, a2) :: rest =>
    decide (t2 < t1 + wait) && withinWaitB wait ((t2, a2) :: rest)

/-- DraftData stored under the newTaskDraft local-storage key by
TaskCard.tsx (the JSON round trip is modelled as the identity). -/
structure DraftData where
  title : String
  content : String
  selectedCategoryId : Option String
  timestamp : Nat
deriving DecidableEq, Repr

/-- saveDraft in TaskCard.tsx: when composing a new task (not editing an
existing one) write the current title, content and selected category to the
newTaskDraft slot; when editing, write nothing. -/
def saveDraft (isEditing : Bool) (title content : String)
    (selectedCategoryId : Option String) (now : Nat)
    (store : Option DraftData) : Option DraftData :=
  if isEditing then store
  else some ⟨title, content, selectedCategoryId, now⟩

/-- State the TaskCard effect installs when opening the new-task editor:
restore the stored draft exactly when one exists, otherwise start blank with
the current category (falsy current category collapsing to null). -/
def loadNewTaskState (store : Option DraftData)
    (currentCategoryId : Option String) : String × String × Option String :=
  match store with
  | some d => (d.title, d.content, d.selectedCategoryId)
  | none => ("", "", jsOrNull currentCategoryId)

/-- handleClose in TaskCard.tsx for a new (not yet saved) task: when the
trimmed title or trimmed content is nonempty, call onSave and remove the
stored draft; otherwise just close, leaving the store untouched. Returns the
new store and whether onSave was called. -/
def handleCloseNewTask (title content : String)
    (store : Option DraftData) : Option DraftData × Bool :=
  if jsTrim title == "" && jsTrim content == "" then (store, false)
  else (none, true)

/-- Timeline of draft writes while composing a new task: the TaskCard effect
arms a 500 ms timer on every change of title, content or selected category
and clears the previous one, so the writes fire per the debounce semantics
with a 500 ms wait, each carrying the state at its triggering change. -/
def draftWriteSchedule (edits : List (Nat × (String × String × Option String))) :
    List (Nat × (String × String × Option String)) :=
  debounceRun 500 edits

/-- Sample task used to instantiate witnesses. -/
def sampleTask : DbTask :=
  ⟨"t1", some "Milk", some "<p>buy milk</p>", 10, 10, some "c1", false, none⟩

/-- Sample database used to instantiate witnesses. -/
def sampleDb : Db :=
  ⟨[sampleTask], [⟨"c1", "Work", 1⟩]⟩

/-- Sample task input used to instantiate witnesses. -/
def sampleInput : TaskInput :=
  ⟨"Milk", "<p>buy milk</p>", some "c1"⟩

/-- Membership is preserved by sorted insertion. -/
theorem mem_insertSorted (le : α → α → Bool) (a b : α) (l : List α) :
    a ∈ insertSorted le b l ↔ a = b ∨ a ∈ l := by
  induction l with
  | nil => simp [insertSorted]
  | cons c cs ih =>
    simp only [insertSorted]
    by_cases hle : le b c = true
    · simp [hle, List.mem_cons]
    · simp [hle, List.mem_cons, ih]
      tauto

/-- Sorting by a comparator does not change membership. -/
theorem mem_sortByC (le : α → α → Bool) (a : α) (l : List α) :
    a ∈ sortByC le l ↔ a ∈ l := by
  induction l with
  | nil => simp [sortByC]
  | cons c cs ih =>
    simp [sortByC, mem_insertSorted, ih]

/-- An update targeted at one id does not change the number of task rows. -/
theorem length_updateRows (l : List DbTask) (id : String) (upd : DbTask → DbTask) :
    (updateRows l id upd).length = l.length := by
  simp [updateRows]

/-- When the row update preserves ids, the rows an update(...).eq(id, id)
returns are exactly the previously matching rows with the update applied. -/
theorem filter_updateRows (l : List DbTask) (id : String) (upd : DbTask → DbTask)
    (h : ∀ t, (upd t).id = t.id) :
    (updateRows l id upd).filter (fun t => t.id == id) =
      (l.filter (fun t => t.id == id)).map upd := by
  induction l with
  | nil => rfl
  | cons hd tl ih =>
    have hmap : updateRows (hd :: tl) id upd =
        (if (hd.id == id) = true then upd hd else hd) :: updateRows tl id upd := rfl
    rw [hmap]
    by_cases hid : (hd.id == id) = true
    · have h2 : ((upd hd).id == id) = true := by
        rw [beq_iff_eq] at hid ⊢
        rw [h hd]
        exact hid
      rw [if_pos hid, List.filter_cons, if_pos h2, List.filter_cons, if_pos hid,
        List.map_cons, ih]
    · rw [if_neg hid, List.filter_cons, if_neg hid, List.filter_cons, if_neg hid, ih]

/-- A row in an updated table comes from applying the update to a matching
original row or is an unchanged non-matching row. -/
theorem mem_updateRows_of_mem (l : List DbTask) (id : String) (upd : DbTask → DbTask)
    (t : DbTask) (ht : t ∈ l) (hid : (t.id == id) = true) :
    upd t ∈ updateRows l id upd := by
  simp only [updateRows, List.mem_map]
  exact ⟨t, ht, by rw [if_pos hid]⟩

/-- From a singleton filter result, the row is in the table and matches. -/
theorem of_filter_eq_singleton {p : DbTask → Bool} {l : List DbTask} {t : DbTask}
    (h : l.filter p = [t]) : t ∈ l ∧ p t = true := by
  have : t ∈ l.filter p := by rw [h]; exact List.mem_singleton.mpr rfl
  exact List.mem_filter.mp this

/-- C1: deleteTask performs a soft delete. For a task table holding exactly
one row with the given id, a successful deleteTask returns that row marked
inactive (is_deleted true, deleted_at set to the deletion time), the tasks
table keeps the same number of rows, and the marked row is retrievable via
getRecentlyDeletedTasks. -/
theorem deleteTask_soft_delete (db : Db) (id : String) (now : Nat) (t : DbTask)
    (h : db.tasks.filter (fun u => u.id == id) = [t]) :
    ∃ t', (deleteTask db id now false).result = some t' ∧
      t'.id = t.id ∧ t'.is_deleted = true ∧ t'.deleted_at = some now ∧
      t'.title = t.title ∧ t'.content = t.content ∧
      (deleteTask db id now false).db.tasks.length = db.tasks.length ∧
      t' ∈ (getRecentlyDeletedTasks (deleteTask db id now false).db false).result := by
  have hpres : ∀ u : DbTask, (applyDeleteRow now u).id = u.id := fun _ => rfl
  have hfilter : (updateRows db.tasks id (applyDeleteRow now)).filter
      (fun u => u.id == id) = [applyDeleteRow now t] := by
    rw [filter_updateRows _ _ _ hpres, h]
    rfl
  obtain ⟨ht, htid⟩ := of_filter_eq_singleton h
  refine ⟨applyDeleteRow now t, ?_, rfl, rfl, rfl, rfl, rfl, ?_, ?_⟩
  · show singleRow ((updateRows db.tasks id (applyDeleteRow now)).filter
      (fun u => u.id == id)) = some (applyDeleteRow now t)
    rw [hfilter]
    rfl
  · exact length_updateRows db.tasks id (applyDeleteRow now)
  · show applyDeleteRow now t ∈ sortByC taskDeletedDesc
      ((updateRows db.tasks id (applyDeleteRow now)).filter (fun u => u.is_deleted))
    rw [mem_sortByC]
    refine List.mem_filter.mpr ⟨?_, rfl⟩
    exact mem_updateRows_of_mem db.tasks id (applyDeleteRow now) t ht htid

/-- C1 witness: a concrete database on which deleteTask soft-deletes the
sample task. -/
theorem deleteTask_soft_delete_witness :
    ∃ t', (deleteTask sampleDb "t1" 42 false).result = some t' ∧
      t'.id = sampleTask.id ∧ t'.is_deleted = true ∧ t'.deleted_at = some 42 ∧
      t'.title = sampleTask.title ∧ t'.content = sampleTask.content ∧
      (deleteTask sampleDb "t1" 42 false).db.tasks.length = sampleDb.tasks.length ∧
      t' ∈ (getRecentlyDeletedTasks (deleteTask sampleDb "t1" 42 false).db false).result :=
  deleteTask_soft_delete sampleDb "t1" 42 sampleTask (by decide)

/-- C2: delete followed by restore is the identity on task visibility.
For a task table holding exactly one row with the given id, restoreTask
after a successful deleteTask returns the row with is_deleted back to false
and deleted_at back to null, while its id, title, content and category_id
are the same as before the delete; the stored row agrees. -/
theorem delete_then_restore_identity (db : Db) (id : String) (t : DbTask)
    (n1 n2 : Nat)
    (h : db.tasks.filter (fun u => u.id == id) = [t]) :
    ∃ t', (restoreTask (deleteTask db id n1 false).db id n2 false).result = some t' ∧
      t'.is_deleted = false ∧ t'.deleted_at = none ∧
      t'.id = t.id ∧ t'.title = t.title ∧ t'.content = t.content ∧
      t'.category_id = t.category_id ∧
      (restoreTask (deleteTask db id n1 false).db id n2 false).db.tasks.filter
        (fun u => u.id == id) = [t'] := by
  have hpres1 : ∀ u : DbTask, (applyDeleteRow n1 u).id = u.id := fun _ => rfl
  have hpres2 : ∀ u : DbTask, (applyRestoreRow n2 u).id = u.id := fun _ => rfl
  have hfilter1 : (updateRows db.tasks id (applyDeleteRow n1)).filter
      (fun u => u.id == id) = [applyDeleteRow n1 t] := by
    rw [filter_updateRows _ _ _ hpres1, h]
    rfl
  have hdb1 : (deleteTask db id n1 false).db.tasks =
      updateRows db.tasks id (applyDeleteRow n1) := rfl
  have hfilter2 : (updateRows (updateRows db.tasks id (applyDeleteRow n1)) id
      (applyRestoreRow n2)).filter (fun u => u.id == id) =
      [applyRestoreRow n2 (applyDeleteRow n1 t)] := by
    rw [filter_updateRows _ _ _ hpres2, hfilter1]
    rfl
  refine ⟨applyRestoreRow n2 (applyDeleteRow n1 t), ?_, rfl, rfl, rfl, rfl, rfl, rfl, ?_⟩
  · show singleRow ((updateRows (updateRows db.tasks id (applyDeleteRow n1)) id
      (applyRestoreRow n2)).filter (fun u => u.id == id)) =
      some (applyRestoreRow n2 (applyDeleteRow n1 t))
    rw [hfilter2]
    rfl
  · exact hfilter2

/-- C2 witness: delete then restore on the sample database returns the
sample task visible again with its original fields. -/
theorem delete_then_restore_identity_witness :
    ∃ t', (restoreTask (deleteTask sampleDb "t1" 42 false).db "t1" 43 false).result = some t' ∧
      t'.is_deleted = false ∧ t'.deleted_at = none ∧
      t'.id = sampleTask.id ∧ t'.title = sampleTask.title ∧
      t'.content = sampleTask.content ∧
      t'.category_id = sampleTask.category_id ∧
      (restoreTask (deleteTask sampleDb "t1" 42 false).db "t1" 43 false).db.tasks.filter
        (fun u => u.id == "t1") = [t'] :=
  delete_then_restore_identity sampleDb "t1" sampleTask 42 43 (by decide)

/-- C3 counterexample: on a concrete database holding one task in category
c1, deleteTask succeeds, yet a subsequent getTasksByCategory for c1 still
returns the task (now carrying is_deleted true): the query does not filter
on is_deleted, so the claim that the task is absent from its result is
false. -/
theorem deleted_task_still_in_category_query :
    ((deleteTask sampleDb "t1" 9 false).result.isSome = true) ∧
    ((getTasksByCategory (deleteTask sampleDb "t1" 9 false).db (some "c1") false).result.any
        (fun t => t.id == "t1" && t.is_deleted) = true) := by
  decide

/-- C3 amended: after a successful deleteTask, the task no longer appears in
the visible task list, because handleDeleteTask filters it out of the client
state; but it is not absent from a subsequent getTasksByCategory call for
its category, which ignores is_deleted and still returns the soft-deleted
row. -/
theorem delete_hides_visible_list_only (tasks : List DbTask) (id : String)
    (db : Db) (t : DbTask) (now : Nat) (cid : String)
    (h : db.tasks.filter (fun u => u.id == id) = [t])
    (hcid : t.category_id = some cid) (hne : ¬ (cid = "")) :
    (∀ u ∈ handleDeleteTaskUpdate tasks id, ¬ (u.id = id)) ∧
    applyDeleteRow now t ∈
      (getTasksByCategory (deleteTask db id now false).db (some cid) false).result := by
  constructor
  · intro u hu
    have hu2 := (List.mem_filter.mp hu).2
    simpa using hu2
  · obtain ⟨ht, htid⟩ := of_filter_eq_singleton h
    have htruthy : jsTruthy (some cid) = true := by
      simp [jsTruthy, hne]
    have hmem : applyDeleteRow now t ∈ sortByC taskCreatedDesc
        (updateRows db.tasks id (applyDeleteRow now)) :=
      (mem_sortByC _ _ _).mpr (mem_updateRows_of_mem _ _ _ _ ht htid)
    have hcat : ((applyDeleteRow now t).category_id == some cid) = true := by
      show (t.category_id == some cid) = true
      rw [hcid]
      simp
    show applyDeleteRow now t ∈
      (if jsTruthy (some cid) then
        (sortByC taskCreatedDesc (updateRows db.tasks id (applyDeleteRow now))).filter
          (fun u => u.category_id == some cid)
       else
        (sortByC taskCreatedDesc (updateRows db.tasks id (applyDeleteRow now))).filter
          (fun u => u.category_id == none))
    rw [if_pos htruthy]
    exact List.mem_filter.mpr ⟨hmem, hcat⟩

/-- C3 amended witness: concrete instance of the amended statement on the
sample database. -/
theorem delete_hides_visible_list_only_witness :
    (∀ u ∈ handleDeleteTaskUpdate [sampleTask] "t1", ¬ (u.id = "t1")) ∧
    applyDeleteRow 9 sampleTask ∈
      (getTasksByCategory (deleteTask sampleDb "t1" 9 false).db (some "c1") false).result :=
  delete_hides_visible_list_only [sampleTask] "t1" sampleDb sampleTask 9 "c1"
    (by decide) (by decide) (by decide)

/-- C4 counterexample: getCategories on a remote error logs the error but
returns an empty array, which is neither null nor false, so the claim that
every server action surfaces a service error as a null or false return
value is false as stated. -/
theorem getCategories_error_returns_empty_array :
    (getCategories sampleDb true).log.length = 1 ∧
    jsOfList (getCategories sampleDb true).result ≠ JsValue.vnull ∧
    jsOfList (getCategories sampleDb true).result ≠ JsValue.vfalse := by
  decide

/-- C4 amended: when the remote data service reports an error, every server
action logs exactly one console error and surfaces the error as a sentinel
return value, namely null for single-row actions, an empty array for list
actions, and false for the Boolean hard-delete variant; no exception is
propagated (each action is a total function here), and the failing call is
attempted exactly once with no retry and no backoff. -/
theorem server_actions_error_once (db : Db) (id nid nm catName : String)
    (input : TaskInput) (now : Nat) (cida : Option String)
    (hnm : ¬ (jsTrim nm = "")) :
    (jsOfList (getCategories db true).result = .varr 0 ∧
      (getCategories db true).log.length = 1 ∧
      (getCategories db true).remoteCalls = 1) ∧
    (jsOfOption (createCategory db catName nid now true).result = .vnull ∧
      (createCategory db catName nid now true).log.length = 1 ∧
      (createCategory db catName nid now true).remoteCalls = 1) ∧
    (jsOfOption (updateCategory db id (some nm) true).result = .vnull ∧
      (updateCategory db id (some nm) true).log.length = 1 ∧
      (updateCategory db id (some nm) true).remoteCalls = 1) ∧
    (jsOfList (getTasksByCategory db cida true).result = .varr 0 ∧
      (getTasksByCategory db cida true).log.length = 1 ∧
      (getTasksByCategory db cida true).remoteCalls = 1) ∧
    (jsOfList (getTasks db true).result = .varr 0 ∧
      (getTasks db true).log.length = 1 ∧
      (getTasks db true).remoteCalls = 1) ∧
    (jsOfOption (createTask db input nid now true).result = .vnull ∧
      (createTask db input nid now true).log.length = 1 ∧
      (createTask db input nid now true).remoteCalls = 1) ∧
    (jsOfOption (updateTask db id input now true).result = .vnull ∧
      (updateTask db id input now true).log.length = 1 ∧
      (updateTask db id input now true).remoteCalls = 1) ∧
    (jsOfOption (deleteTask db id now true).result = .vnull ∧
      (deleteTask db id now true).log.length = 1 ∧
      (deleteTask db id now true).remoteCalls = 1) ∧
    (jsOfOption (restoreTask db id now true).result = .vnull ∧
      (restoreTask db id now true).log.length = 1 ∧
      (restoreTask db id now true).remoteCalls = 1) ∧
    (jsOfList (getRecentlyDeletedTasks db true).result = .varr 0 ∧
      (getRecentlyDeletedTasks db true).log.length = 1 ∧
      (getRecentlyDeletedTasks db true).remoteCalls = 1) ∧
    (jsOfBool (deleteTaskHard db id true).result = .vfalse ∧
      (deleteTaskHard db id true).log.length = 1 ∧
      (deleteTaskHard db id true).remoteCalls = 1) := by
  have hne : ¬ (nm = "") := by
    intro he
    exact hnm (by rw [he]; rfl)
  have hupd : updateCategory db id (some nm) true =
      ⟨none, db, ["Error updating category:"], 1⟩ := by
    simp [updateCategory, jsTruthy, hne, hnm]
  refine ⟨⟨rfl, rfl, rfl⟩, ⟨rfl, rfl, rfl⟩, ?_, ⟨rfl, rfl, rfl⟩, ⟨rfl, rfl, rfl⟩,
    ⟨rfl, rfl, rfl⟩, ⟨rfl, rfl, rfl⟩, ⟨rfl, rfl, rfl⟩, ⟨rfl, rfl, rfl⟩,
    ⟨rfl, rfl, rfl⟩, ⟨rfl, rfl, rfl⟩⟩
  rw [hupd]
  exact ⟨rfl, rfl, rfl⟩

/-- C4 amended witness: the updateCategory conjunct instantiated on the
sample database with a concrete nonempty name. -/
theorem server_actions_error_once_witness :
    jsOfOption (updateCategory sampleDb "c1" (some "Chores") true).result = JsValue.vnull ∧
    (updateCategory sampleDb "c1" (some "Chores") true).log.length = 1 ∧
    (updateCategory sampleDb "c1" (some "Chores") true).remoteCalls = 1 :=
  (server_actions_error_once sampleDb "c1" "n1" "Chores" "Work" sampleInput 5 none
    (by decide)).2.2.1

/-- C5: deleting a category nulls out referencing tasks. Under the foreign
key ON DELETE SET NULL action declared in the schema, deleting a category
keeps every task row (same row count), rewrites each task that referenced
the deleted category to a null category_id, leaves every other task
unchanged, and afterwards no task references the deleted category. -/
theorem category_delete_sets_null (db : Db) (catId : String) :
    (onDeleteCategorySetNull db catId).tasks.length = db.tasks.length ∧
    (∀ t ∈ db.tasks, t.category_id = some catId →
      { t with category_id := none } ∈ (onDeleteCategorySetNull db catId).tasks) ∧
    (∀ t ∈ db.tasks, t.category_id ≠ some catId →
      t ∈ (onDeleteCategorySetNull db catId).tasks) ∧
    (∀ t ∈ (onDeleteCategorySetNull db catId).tasks, t.category_id ≠ some catId) := by
  refine ⟨List.length_map _ _, ?_, ?_, ?_⟩
  · intro t ht hcat
    refine List.mem_map.mpr ⟨t, ht, ?_⟩
    rw [if_pos]
    rw [beq_iff_eq]
    exact hcat
  · intro t ht hcat
    refine List.mem_map.mpr ⟨t, ht, ?_⟩
    rw [if_neg]
    intro hb
    exact hcat (beq_iff_eq.mp hb)
  · intro t ht
    obtain ⟨u, hu, he⟩ := List.mem_map.mp ht
    by_cases hb : (u.category_id == some catId) = true
    · rw [if_pos hb] at he
      rw [← he]
      simp
    · rw [if_neg hb] at he
      rw [← he]
      intro hc
      exact hb (beq_iff_eq.mpr hc)

/-- C5 witness: on the sample database, deleting category c1 nulls out the
sample task, which referenced it. -/
theorem category_delete_sets_null_witness :
    { sampleTask with category_id := none } ∈
      (onDeleteCategorySetNull sampleDb "c1").tasks :=
  (category_delete_sets_null sampleDb "c1").2.1 sampleTask (by decide) (by decide)

/-- C6 counterexample: with an existing category named Work, attempting to
create a category whose trimmed name work matches it case-insensitively is
not rejected: handleCreateCategory consults no category list and issues the
server call, so the claim that creation attempts with duplicate names are
rejected client-side is false. -/
theorem createCategory_duplicate_not_rejected :
    (sampleDb.categories.any
      (fun c => jsToLower c.name == jsToLower (jsTrim "work")) = true) ∧
    handleCreateCategory "work" = CatUiOutcome.callServer "work" := by
  decide

/-- C6 amended: the client duplicate check covers renames only. For every
rename attempt giving a category a trimmed name that case-insensitively
matches the name of another existing category, handleSaveCategoryName does
not issue the server call; creating a category performs no duplicate check,
so duplicates can enter through creation. -/
theorem rename_rejects_duplicate_name (categories : List Category)
    (eid input : String) (c : Category) (hc : c ∈ categories)
    (hne : ¬ (c.id = eid))
    (hdup : jsToLower c.name = jsToLower (jsTrim input)) :
    (handleSaveCategoryName categories (some eid) input).isCallServer = false := by
  have hany : (categories.filter (fun d => !(d.id == eid))).any
      (fun d => jsToLower d.name == jsToLower (jsTrim input)) = true := by
    apply List.any_eq_true.mpr
    refine ⟨c, List.mem_filter.mpr ⟨hc, ?_⟩, ?_⟩
    · simp [hne]
    · rw [beq_iff_eq]
      exact hdup
  simp only [handleSaveCategoryName, Option.getD]
  by_cases h1 : (!(jsTruthy (some eid)) || jsTrim input == "") = true
  · rw [if_pos h1]
    rfl
  · rw [if_neg h1]
    cases hfind : categories.find? (fun d => d.id == eid) with
    | some orig =>
      dsimp only
      by_cases h2 : (orig.name == jsTrim input) = true
      · rw [if_pos h2]
        rfl
      · rw [if_neg h2, if_pos hany]
        rfl
    | none =>
      dsimp only
      rw [if_pos hany]
      rfl

/-- C6 amended witness: a concrete rename of category c2 to a name matching
Work case-insensitively issues no server call. -/
theorem rename_rejects_duplicate_name_witness :
    (handleSaveCategoryName [⟨"c1", "Work", 1⟩, ⟨"c2", "Home", 2⟩]
      (some "c2") " work ").isCallServer = false :=
  rename_rejects_duplicate_name [⟨"c1", "Work", 1⟩, ⟨"c2", "Home", 2⟩]
    "c2" " work " ⟨"c1", "Work", 1⟩ (by decide) (by decide) (by decide)

/-- Debounce burst lemma: on a timeline that ends with a call and in which
every call arrives strictly before the previous deadline, the debounced
function fires exactly once, at the last call time plus the wait, with the
arguments of the last call. -/
theorem debounceRun_burst_eq (wait : Nat) :
    ∀ (edits : List (Nat × α)) (t : Nat) (a : α),
      withinWaitB wait (edits ++ [(t, a)]) = true →
      debounceRun wait (edits ++ [(t, a)]) = [(t + wait, a)]
  | [], _, _, _ => rfl
  | [(t1, a1)], t, a, h => by
    have h1 : t < t1 + wait := by
      have h2 : (decide (t < t1 + wait) && withinWaitB wait [(t, a)]) = true := h
      simp only [withinWaitB, Bool.and_true, decide_eq_true_eq] at h2
      exact h2
    show (if t < t1 + wait then debounceRun wait [(t, a)]
          else (t1 + wait, a1) :: debounceRun wait [(t, a)]) = [(t + wait, a)]
    rw [if_pos h1]
    rfl
  | (t1, a1) :: (t2, a2) :: rest, t, a, h => by
    have hsplit : (decide (t2 < t1 + wait) &&
        withinWaitB wait ((t2, a2) :: (rest ++ [(t, a)]))) = true := h
    simp only [Bool.and_eq_true, decide_eq_true_eq] at hsplit
    have ih := debounceRun_burst_eq wait ((t2, a2) :: rest) t a hsplit.2
    show (if t2 < t1 + wait then debounceRun wait ((t2, a2) :: (rest ++ [(t, a)]))
          else (t1 + wait, a1) :: debounceRun wait ((t2, a2) :: (rest ++ [(t, a)]))) =
        [(t + wait, a)]
    rw [if_pos hsplit.1]
    exact ih

/-- C7: the debounced autosave is last-write-wins. For every burst of edits
in which each new edit arrives before the 1500 ms wait has elapsed (so each
cancels the pending save), the wrapped save function runs exactly once for
the burst, with the task id, title, content and category of the most recent
edit, 1500 ms after it. -/
theorem autosave_last_write_wins (edits : List (Nat × AutoSaveArgs)) (t : Nat)
    (a : AutoSaveArgs)
    (h : withinWaitB 1500 (edits ++ [(t, a)]) = true) :
    debouncedPerformAutoSave (edits ++ [(t, a)]) = [(t + 1500, a)] :=
  debounceRun_burst_eq 1500 edits t a h

/-- C7 witness: two edits 1000 ms apart produce a single save carrying the
data of the second edit. -/
theorem autosave_last_write_wins_witness :
    debouncedPerformAutoSave
      [(0, ⟨"t1", "M", "<p>a</p>", none⟩), (1000, ⟨"t1", "Milk", "<p>ab</p>", some "c1"⟩)] =
      [(2500, ⟨"t1", "Milk", "<p>ab</p>", some "c1"⟩)] :=
  autosave_last_write_wins [(0, ⟨"t1", "M", "<p>a</p>", none⟩)] 1000
    ⟨"t1", "Milk", "<p>ab</p>", some "c1"⟩ (by decide)

/-- C8: new-task drafts round-trip through local storage. For every burst of
edits to a new task ending 500 ms before quiet, exactly one draft write
fires, 500 ms after the last change and carrying its title, content and
selected category; saveDraft stores exactly those fields; reopening the
new-task editor restores exactly the stored draft; and closing with a
nonblank title or content saves the new task and removes the stored
draft. -/
theorem new_task_draft_roundtrip
    (edits : List (Nat × (String × String × Option String)))
    (t now ts : Nat) (title content : String) (cat cc : Option String)
    (store : Option DraftData)
    (h : withinWaitB 500 (edits ++ [(t, (title, content, cat))]) = true)
    (hnb : ¬ (jsTrim title = "" ∧ jsTrim content = "")) :
    draftWriteSchedule (edits ++ [(t, (title, content, cat))]) =
      [(t + 500, (title, content, cat))] ∧
    saveDraft false title content cat now store = some ⟨title, content, cat, now⟩ ∧
    loadNewTaskState (some ⟨title, content, cat, ts⟩) cc = (title, content, cat) ∧
    handleCloseNewTask title content (some ⟨title, content, cat, ts⟩) = (none, true) := by
  refine ⟨debounceRun_burst_eq 500 edits t (title, content, cat) h, rfl, rfl, ?_⟩
  have hcond : (jsTrim title == "" && jsTrim content == "") = false := by
    rcases Bool.eq_false_or_eq_true (jsTrim title == "") with ht | ht
    · rcases Bool.eq_false_or_eq_true (jsTrim content == "") with hc | hc
      · exact absurd ⟨beq_iff_eq.mp ht, beq_iff_eq.mp hc⟩ hnb
      · rw [hc, Bool.and_false]
    · rw [ht, Bool.false_and]
  show (if (jsTrim title == "" && jsTrim content == "") = true
        then ((some ⟨title, content, cat, ts⟩ : Option DraftData), false)
        else ((none : Option DraftData), true)) = (none, true)
  rw [hcond]
  rfl

/-- C8 witness: a concrete two-edit draft session on a new task. -/
theorem new_task_draft_roundtrip_witness :
    draftWriteSchedule [(0, ("M", "", none)), (200, ("Milk", "<p>x</p>", some "c1"))] =
      [(700, ("Milk", "<p>x</p>", some "c1"))] ∧
    saveDraft false "Milk" "<p>x</p>" (some "c1") 700 none =
      some ⟨"Milk", "<p>x</p>", some "c1", 700⟩ ∧
    loadNewTaskState (some ⟨"Milk", "<p>x</p>", some "c1", 700⟩) (some "c2") =
      ("Milk", "<p>x</p>", some "c1") ∧
    handleCloseNewTask "Milk" "<p>x</p>" (some ⟨"Milk", "<p>x</p>", some "c1", 700⟩) =
      (none, true) :=
  new_task_draft_roundtrip [(0, ("M", "", none))] 200 700 700 "Milk" "<p>x</p>"
    (some "c1") (some "c2") none (by decide) (by decide)

/-- C9: getTasksByCategory(null) returns only uncategorized tasks. A task is
in its result exactly when it is in the tasks table with a null category_id,
so every task with a non-null category is excluded; retrieving all tasks
regardless of category is what the separate getTasks returns. -/
theorem getTasksByCategory_null_only_uncategorized (db : Db) (t : DbTask) :
    (t ∈ (getTasksByCategory db none false).result ↔
      t ∈ db.tasks ∧ t.category_id = none) ∧
    (t ∈ (getTasks db false).result ↔ t ∈ db.tasks) := by
  constructor
  · show t ∈ (sortByC taskCreatedDesc db.tasks).filter
        (fun u => u.category_id == none) ↔ t ∈ db.tasks ∧ t.category_id = none
    rw [List.mem_filter, mem_sortByC]
    constructor
    · intro hx
      exact ⟨hx.1, beq_iff_eq.mp hx.2⟩
    · intro hx
      exact ⟨hx.1, beq_iff_eq.mpr hx.2⟩
  · show t ∈ sortByC taskCreatedDesc db.tasks ↔ t ∈ db.tasks
    exact mem_sortByC _ _ _

/-- C10: createTask and updateTask never store an empty title or an
undefined category reference. For every TaskInput, the stored title is
Untitled Task when the input title is empty and the input title otherwise,
hence never empty and never null; and the stored category_id is null when
the input category is missing or empty, and the input category otherwise. -/
theorem task_title_category_defaults (db : Db) (input : TaskInput)
    (nid : String) (now : Nat) (id : String) (u : DbTask)
    (h : db.tasks.filter (fun v => v.id == id) = [u]) :
    (∃ r, (createTask db input nid now false).result = some r ∧
      r.title = some (if input.title = "" then "Untitled Task" else input.title) ∧
      ¬ (r.title = some "") ∧ ¬ (r.title = none) ∧
      r.category_id = (if input.category_id = none ∨ input.category_id = some ""
        then none else input.category_id)) ∧
    (∃ r, (updateTask db id input now false).result = some r ∧
      r.title = some (if input.title = "" then "Untitled Task" else input.title) ∧
      ¬ (r.title = some "") ∧ ¬ (r.title = none) ∧
      r.category_id = (if input.category_id = none ∨ input.category_id = some ""
        then none else input.category_id)) := by
  have htitle : jsOrString input.title "Untitled Task" =
      (if input.title = "" then "Untitled Task" else input.title) := by
    by_cases hs : input.title = "" <;> simp [jsOrString, hs]
  have hnz : ¬ (jsOrString input.title "Untitled Task" = "") := by
    by_cases hs : input.title = ""
    · rw [htitle, if_pos hs]
      decide
    · rw [htitle, if_neg hs]
      exact hs
  have hcat : jsOrNull input.category_id =
      (if input.category_id = none ∨ input.category_id = some ""
        then none else input.category_id) := by
    cases hci : input.category_id with
    | none => simp [jsOrNull, jsTruthy]
    | some s => by_cases hs : s = "" <;> simp [jsOrNull, jsTruthy, hs]
  have hpres : ∀ v : DbTask, (applyInputRow input now v).id = v.id := fun _ => rfl
  have hfilter : (updateRows db.tasks id (applyInputRow input now)).filter
      (fun v => v.id == id) = [applyInputRow input now u] := by
    rw [filter_updateRows _ _ _ hpres, h]
    rfl
  constructor
  · refine ⟨newTaskRow input nid now, rfl, ?_, ?_, ?_, ?_⟩
    · show some (jsOrString input.title "Untitled Task") = _
      rw [htitle]
    · intro hcontra
      exact hnz (Option.some.inj hcontra)
    · intro hcontra
      exact Option.noConfusion hcontra
    · show jsOrNull input.category_id = _
      exact hcat
  · refine ⟨applyInputRow input now u, ?_, ?_, ?_, ?_, ?_⟩
    · show singleRow ((updateRows db.tasks id (applyInputRow input now)).filter
        (fun v => v.id == id)) = some (applyInputRow input now u)
      rw [hfilter]
      rfl
    · show some (jsOrString input.title "Untitled Task") = _
      rw [htitle]
    · intro hcontra
      exact hnz (Option.some.inj hcontra)
    · intro hcontra
      exact Option.noConfusion hcontra
    · show jsOrNull input.category_id = _
      exact hcat

/-- C10 witness: an input with an empty title and an empty category string
is stored as Untitled Task with a null category, by both createTask and
updateTask on the sample database. -/
theorem task_title_category_defaults_witness :
    (∃ r, (createTask sampleDb ⟨"", "<p>c</p>", some ""⟩ "t9" 7 false).result = some r ∧
      r.title = some (if ("" : String) = "" then "Untitled Task" else "") ∧
      ¬ (r.title = some "") ∧ ¬ (r.title = none) ∧
      r.category_id = (if (some "" : Option String) = none ∨ (some "" : Option String) = some ""
        then none else some "")) ∧
    (∃ r, (updateTask sampleDb "t1" ⟨"", "<p>c</p>", some ""⟩ 7 false).result = some r ∧
      r.title = some (if ("" : String) = "" then "Untitled Task" else "") ∧
      ¬ (r.title = some "") ∧ ¬ (r.title = none) ∧
      r.category_id = (if (some "" : Option String) = none ∨ (some "" : Option String) = some ""
        then none else some "")) :=
  task_title_category_defaults sampleDb ⟨"", "<p>c</p>", some ""⟩ "t9" 7 "t1"
    sampleTask (by decide)

end ToDoApp
